import Mathlib

/-!
Verification of the `flakeid53` generator (`src/index.js`).

The source is a JavaScript module exporting `createFlakeID53({epoch, workerId})`,
which returns a closure-based generator with two operations:

* `nextId()` / `nextIdPromise(resolve, reject)` — the id-producing state machine
  over the mutable variables `sequenceTime` and `sequenceTick`;
* `parse(id)` — the pure decomposition of an id.

We embed the state machine shallowly: the mutable closure variables become an
explicit `GenState`, one invocation of `nextIdPromise` becomes the pure step
function `nextIdStep` returning a `NextIdResult` together with the updated
state, and `setTimeout(nextIdPromise, 1, ...)` becomes the `retry` result
(the enclosing run `runAttempts` threads the state through a list of observed
wall-clock values, one per attempt).

JavaScript numeric operators are translated as follows, on `Int`:
`%` (truncated remainder on numbers) is `Int.tmod`; `Math.floor(a / b)` for
`b > 0` is `Int.fdiv`; the floating-point test `(current - epoch) / 1e12 >= 1`
is rendered as `1000000000000 ≤ current - epoch`, which is exactly equivalent
for the values reachable at that program point (the dividend is a nonnegative
integer below 2^63, where correctly-rounded binary64 division crosses 1
exactly at dividend = 10^12).
-/

namespace FlakeID53

/-- The mutable closure state of one generator instance:
`sequenceTime` is the `sequenceTime` variable (last observed millisecond,
initially 0) and `sequenceTick` is the `sequenceTick` counter (initially 0). -/
structure GenState where
  sequenceTime : Int
  sequenceTick : Nat
deriving DecidableEq, Repr

/-- Outcome of one invocation of `nextIdPromise`:
the three `reject` branches, the `setTimeout` re-scheduling branch, and the
`resolve` branch carrying the produced id. -/
inductive NextIdResult where
  | epochOutOfRange
  | clockMovedBackward
  | safeIntegerRangeExceeded
  | retry
  | id (v : Int)
deriving DecidableEq, Repr

/-- Result and post-state of one invocation of `nextIdPromise`. -/
structure NextIdOut where
  result : NextIdResult
  state : GenState
deriving DecidableEq, Repr

/-- `const t = (current - epoch) % 1000000000000` from `nextIdPromise`
(JavaScript truncated remainder). -/
def elapsedT (epoch current : Int) : Int :=
  (current - epoch).tmod 1000000000000

/-- The tail of `nextIdPromise` after the branch on `current` has updated the
state: the `sequenceTick > 999` backoff check, the safe-integer range guard
`oor >= 1 || t > 900719925473`, and the resolution
`(t * 10 + workerId) * 1000 + sequenceTick`. -/
def emitOrReject (epoch workerId current : Int) (s : GenState) : NextIdOut :=
  if 999 < s.sequenceTick then ⟨.retry, s⟩
  else if 1000000000000 ≤ current - epoch ∨ 900719925473 < elapsedT epoch current then
    ⟨.safeIntegerRangeExceeded, s⟩
  else
    ⟨.id ((elapsedT epoch current * 10 + workerId) * 1000 + (s.sequenceTick : Int)), s⟩

/-- One invocation of `nextIdPromise` at wall-clock value `current`:
the four-way branch on `current` versus `epoch` and `sequenceTime`,
followed by `emitOrReject`. -/
def nextIdStep (epoch workerId current : Int) (s : GenState) : NextIdOut :=
  if current < epoch then
    ⟨.epochOutOfRange, s⟩
  else if s.sequenceTime < current then
    emitOrReject epoch workerId current ⟨current, 0⟩
  else if current < s.sequenceTime then
    ⟨.clockMovedBackward, s⟩
  else
    emitOrReject epoch workerId current ⟨s.sequenceTime, s.sequenceTick + 1⟩

/-- A run of successive `nextIdPromise` invocations on one generator instance:
each element of `cs` is the `Date.now()` value observed by one attempt, and the
closure state is threaded through. -/
def runAttempts (epoch workerId : Int) : GenState → List Int → List NextIdResult
  | _, [] => []
  | s, c :: cs =>
      let o := nextIdStep epoch workerId c s
      o.result :: runAttempts epoch workerId o.state cs

/-- The record returned by `parse(id)`. -/
structure ParsedId where
  time : Int
  sequence : Int
  workerId : Int
deriving DecidableEq, Repr

/-- `parse(id)` from the source:
`time = Math.floor(id / 10000) + epoch`, `sequence = id % 1000`,
`workerId = Math.floor((id % 10000) / 1000)`. -/
def parse (epoch id : Int) : ParsedId :=
  { time := id.fdiv 10000 + epoch
    sequence := id.tmod 1000
    workerId := (id.tmod 10000).fdiv 1000 }

/-- The JavaScript values we model as possible `workerId` arguments:
`undefined` (field omitted), a whole-number value, or a string. -/
inductive JsValue where
  | undef
  | num (n : Int)
  | str (s : String)
deriving DecidableEq, Repr

/-- JavaScript truthiness on the modelled values: `undefined`, `0` and `""`
are falsy, everything else truthy. -/
def isTruthy : JsValue → Bool
  | .undef => false
  | .num n => n != 0
  | .str s => s != ""

/-- `Number.isInteger` on the modelled values. -/
def isIntegerJs : JsValue → Bool
  | .num _ => true
  | _ => false

/-- `Math.abs((workerId || 0) % 10)`: a falsy value is replaced by `0`, then
the JavaScript truncated remainder by 10 is taken and its absolute value. -/
def normWorkerId : JsValue → Int
  | .num n => ((if n != 0 then n else 0).tmod 10).natAbs
  | _ => 0

/-- A constructed generator: the captured `epoch`, the normalized `workerId`,
and the freshly zeroed closure state. -/
structure FlakeGen where
  epoch : Int
  workerId : Int
  state : GenState
deriving DecidableEq, Repr

/-- `createFlakeID53({epoch, workerId})`: throws `"No epoch set"` when `epoch`
is falsy (missing or zero in the modelled domain), throws
`"Cannot use workerId out of 0..9"` when `workerId` is truthy and not an
integer, and otherwise returns the generator with normalized `workerId` and
zeroed state. -/
def createFlakeID53 (epoch : Option Int) (workerId : JsValue) : Except String FlakeGen :=
  if epoch.getD 0 = 0 then
    .error "No epoch set"
  else if isTruthy workerId && !isIntegerJs workerId then
    .error "Cannot use workerId out of 0..9"
  else
    .ok ⟨epoch.getD 0, normWorkerId workerId, ⟨0, 0⟩⟩

/-- The `parse` member of the returned generator object, seen as an operation
on the whole instance: it reads only the captured `epoch` and leaves the
instance untouched. -/
def parseG (g : FlakeGen) (id : Int) : ParsedId × FlakeGen :=
  (parse g.epoch id, g)

/-- Progress measure on the closure state: the opened millisecond weighted by
the four decimal digits reserved for worker id and sequence, plus the tick
capped at its emittable maximum.  Every step of `nextIdPromise` is
nondecreasing on it, and every id-producing step strictly increases it. -/
def measureG (e : Int) (s : GenState) : Int :=
  (s.sequenceTime - e) * 10000 + (min s.sequenceTick 999 : Nat)

/-! ### Helper lemmas about one step -/

lemma elapsedT_eq_self {epoch current : Int} (h0 : epoch ≤ current)
    (h1 : current - epoch < 1000000000000) : elapsedT epoch current = current - epoch := by
  unfold elapsedT
  exact Int.tmod_eq_of_lt (by omega) h1

/-- Anatomy of a successful step: the epoch check passed, the elapsed time is
inside the safe window, and the produced id packs `current - epoch`, the
worker id and the final tick, which the post-state records. -/
lemma nextIdStep_id {e w c : Int} {s : GenState} {v : Int}
    (h : (nextIdStep e w c s).result = .id v) :
    e ≤ c ∧ c - e ≤ 900719925473 ∧
      ∃ t : Nat, t ≤ 999 ∧ (nextIdStep e w c s).state = ⟨c, t⟩ ∧
        v = ((c - e) * 10 + w) * 1000 + (t : Int) ∧
        ((s.sequenceTime < c ∧ t = 0) ∨ (s.sequenceTime = c ∧ t = s.sequenceTick + 1)) := by
  unfold nextIdStep emitOrReject at h ⊢
  split_ifs at h ⊢ with h1 h2 h3 h4 h5 h6 h7
  · push_neg at h1 h4
    obtain ⟨h4a, h4b⟩ := h4
    rw [elapsedT_eq_self (by omega) (by omega)] at h h4b
    simp only [NextIdResult.id.injEq] at h
    simp only [Nat.cast_zero] at h ⊢
    exact ⟨by omega, by omega, 0, by omega, rfl, by omega, Or.inl ⟨h2, rfl⟩⟩
  · push_neg at h1 h2 h5 h7
    obtain ⟨h7a, h7b⟩ := h7
    have hst : s.sequenceTime = c := le_antisymm h5 h2
    rw [elapsedT_eq_self (by omega) (by omega)] at h h7b
    simp only [NextIdResult.id.injEq] at h h6 ⊢
    exact ⟨by omega, by omega, s.sequenceTick + 1, by omega, by rw [hst],
      by push_cast at h ⊢; omega, Or.inr ⟨hst, rfl⟩⟩

lemma nextIdStep_epoch_iff (e w c : Int) (s : GenState) :
    (nextIdStep e w c s).result = .epochOutOfRange ↔ c < e := by
  unfold nextIdStep emitOrReject
  split_ifs with h1 h2 h3 h4 h5 h6 h7 <;> simp <;> omega

lemma nextIdStep_clock_iff (e w c : Int) (s : GenState) :
    (nextIdStep e w c s).result = .clockMovedBackward ↔ e ≤ c ∧ c < s.sequenceTime := by
  unfold nextIdStep emitOrReject
  split_ifs with h1 h2 h3 h4 h5 h6 h7 <;> simp <;> omega

lemma nextIdStep_reject_state (e w c : Int) (s : GenState)
    (h : (nextIdStep e w c s).result = .epochOutOfRange ∨
         (nextIdStep e w c s).result = .clockMovedBackward) :
    (nextIdStep e w c s).state = s := by
  unfold nextIdStep emitOrReject at h ⊢
  split_ifs at h ⊢ <;> simp_all

lemma nextIdStep_range (e w c : Int) (s : GenState)
    (h : (nextIdStep e w c s).result = .safeIntegerRangeExceeded) :
    e ≤ c ∧ 900719925473 < c - e := by
  unfold nextIdStep emitOrReject at h
  split_ifs at h with h1 h2 h3 h4 h5 h6 h7
  all_goals
    refine ⟨by omega, ?_⟩
    rcases ‹_ ∨ _› with hg | hg
    · omega
    · by_cases hlt : c - e < 1000000000000
      · rw [elapsedT_eq_self (by omega) hlt] at hg
        omega
      · omega

lemma measureG_mono (e w c : Int) (s : GenState) :
    measureG e s ≤ measureG e (nextIdStep e w c s).state := by
  unfold nextIdStep emitOrReject measureG
  split_ifs with h1 h2 h3 h4 h5 h6 h7 <;> simp <;> omega

lemma measureG_emit (e w c : Int) (s : GenState) (v : Int)
    (h : (nextIdStep e w c s).result = .id v) :
    measureG e s < measureG e (nextIdStep e w c s).state ∧
      v = measureG e (nextIdStep e w c s).state + 1000 * w := by
  obtain ⟨hec, hrange, t, ht, hstate, hv, hbr⟩ := nextIdStep_id h
  rw [hstate]
  unfold measureG
  rcases hbr with ⟨hlt, rfl⟩ | ⟨heq, rfl⟩
  · simp only []
    constructor
    · have : (min s.sequenceTick 999 : Nat) ≤ 999 := by omega
      push_cast
      omega
    · push_cast
      omega
  · simp only [heq]
    constructor
    · push_cast
      omega
    · push_cast
      omega

lemma runAttempts_id_lb (e w : Int) :
    ∀ (cs : List Int) (s : GenState) (j : Nat) (v : Int),
      (runAttempts e w s cs)[j]? = some (.id v) →
      measureG e s + 1000 * w < v := by
  intro cs
  induction cs with
  | nil =>
      intro s j v h
      simp [runAttempts] at h
  | cons c cs ih =>
      intro s j v h
      simp only [runAttempts] at h
      cases j with
      | zero =>
          simp only [List.getElem?_cons_zero, Option.some.injEq] at h
          obtain ⟨hlt, hv⟩ := measureG_emit e w c s v h
          omega
      | succ j =>
          simp only [List.getElem?_cons_succ] at h
          have hle := measureG_mono e w c s
          have := ih (nextIdStep e w c s).state j v h
          omega

lemma runAttempts_lt (e w : Int) :
    ∀ (cs : List Int) (s : GenState) (i j : Nat) (v1 v2 : Int), i < j →
      (runAttempts e w s cs)[i]? = some (.id v1) →
      (runAttempts e w s cs)[j]? = some (.id v2) →
      v1 < v2 := by
  intro cs
  induction cs with
  | nil =>
      intro s i j v1 v2 _ h1 _
      simp [runAttempts] at h1
  | cons c cs ih =>
      intro s i j v1 v2 hij h1 h2
      simp only [runAttempts] at h1 h2
      cases i with
      | zero =>
          simp only [List.getElem?_cons_zero, Option.some.injEq] at h1
          obtain ⟨j, rfl⟩ : ∃ j2, j = j2 + 1 := ⟨j - 1, by omega⟩
          simp only [List.getElem?_cons_succ] at h2
          obtain ⟨_, hv1⟩ := measureG_emit e w c s v1 h1
          have := runAttempts_id_lb e w cs (nextIdStep e w c s).state j v2 h2
          omega
      | succ i =>
          obtain ⟨j, rfl⟩ : ∃ j2, j = j2 + 1 := ⟨j - 1, by omega⟩
          simp only [List.getElem?_cons_succ] at h1 h2
          exact ih (nextIdStep e w c s).state i j v1 v2 (by omega) h1 h2

lemma runAttempts_id_shape (e w : Int) :
    ∀ (cs : List Int) (s : GenState) (j : Nat) (v : Int),
      (runAttempts e w s cs)[j]? = some (.id v) →
      ∃ (m : Int) (t : Nat), 0 ≤ m ∧ m ≤ 900719925473 ∧ t ≤ 999 ∧
        v = (m * 10 + w) * 1000 + (t : Int) := by
  intro cs
  induction cs with
  | nil =>
      intro s j v h
      simp [runAttempts] at h
  | cons c cs ih =>
      intro s j v h
      simp only [runAttempts] at h
      cases j with
      | zero =>
          simp only [List.getElem?_cons_zero, Option.some.injEq] at h
          obtain ⟨hec, hrange, t, ht, _, hv, _⟩ := nextIdStep_id h
          exact ⟨c - e, t, by omega, hrange, ht, hv⟩
      | succ j =>
          simp only [List.getElem?_cons_succ] at h
          exact ih (nextIdStep e w c s).state j v h

lemma parse_packed (e w m : Int) (t : Nat) (hw0 : 0 ≤ w) (hw9 : w ≤ 9)
    (hm : 0 ≤ m) (ht : t ≤ 999) :
    parse e ((m * 10 + w) * 1000 + (t : Int)) = ⟨e + m, (t : Int), w⟩ := by
  have hid : (0 : Int) ≤ (m * 10 + w) * 1000 + (t : Int) := by
    have := Int.ofNat_nonneg t
    omega
  simp only [parse, ParsedId.mk.injEq]
  refine ⟨?_, ?_, ?_⟩
  · rw [Int.fdiv_eq_ediv _ (by omega)]
    omega
  · rw [Int.tmod_eq_emod hid (by omega)]
    omega
  · rw [Int.tmod_eq_emod hid (by omega), Int.fdiv_eq_ediv _ (by omega)]
    omega

lemma normWorkerId_num (n : Int) :
    normWorkerId (.num n) = ((n.natAbs % 10 : Nat) : Int) := by
  have hdef : normWorkerId (.num n) = (((if n != 0 then n else 0).tmod 10).natAbs : Int) := rfl
  have hif : (if n != 0 then n else 0) = n := by
    by_cases h : n = 0 <;> simp [h]
  rw [hdef, hif]
  cases n with
  | ofNat m =>
      have h1 : Int.tmod (Int.ofNat m) 10 = Int.ofNat (m % 10) := rfl
      rw [h1]
      rfl
  | negSucc m =>
      have h1 : Int.tmod (Int.negSucc m) 10 = -Int.ofNat (Nat.succ m % 10) := rfl
      rw [h1, Int.natAbs_neg]
      rfl

lemma normWorkerId_bounds (wid : JsValue) :
    0 ≤ normWorkerId wid ∧ normWorkerId wid ≤ 9 := by
  cases wid with
  | undef => simp [normWorkerId]
  | str s => simp [normWorkerId]
  | num n =>
      rw [normWorkerId_num]
      have : n.natAbs % 10 < 10 := Nat.mod_lt _ (by omega)
      omega

/-! ### The claims -/

/-- C1: every id resolved by a `nextIdPromise` invocation (for a normalized
worker id in [0, 9]) is a non-negative integer not exceeding
`2^53 - 1 = 9007199254740991`; the guard constant 900719925473 guarantees the
bound for every sequence value up to 999. -/
theorem claim1_safe_bound (e w c : Int) (s : GenState) (v : Int)
    (hw0 : 0 ≤ w) (hw9 : w ≤ 9)
    (h : (nextIdStep e w c s).result = .id v) :
    0 ≤ v ∧ v ≤ 9007199254740991 := by
  obtain ⟨hec, hrange, t, ht, _, hv, _⟩ := nextIdStep_id h
  omega

theorem claim1_safe_bound_witness :
    0 ≤ (9007199254739000 : Int) ∧ (9007199254739000 : Int) ≤ 9007199254740991 :=
  claim1_safe_bound 1 9 900719925474 ⟨0, 0⟩ 9007199254739000
    (by decide) (by decide) (by decide)

/-- C2: an id produced by a successful `nextIdPromise` invocation parses back
(under the same epoch) to exactly the configured worker id, the sequence value
it was emitted with (within [0, 999]), and the millisecond it was produced
in, `time = epoch + elapsedMillis = current`. -/
theorem claim2_roundtrip (e w c : Int) (s : GenState) (v : Int)
    (hw0 : 0 ≤ w) (hw9 : w ≤ 9)
    (h : (nextIdStep e w c s).result = .id v) :
    (parse e v).workerId = w ∧
    (parse e v).sequence = ((nextIdStep e w c s).state.sequenceTick : Int) ∧
    0 ≤ (parse e v).sequence ∧ (parse e v).sequence ≤ 999 ∧
    (parse e v).time = e + (c - e) ∧ (parse e v).time = c := by
  obtain ⟨hec, hrange, t, ht, hstate, hv, _⟩ := nextIdStep_id h
  subst hv
  rw [parse_packed e w (c - e) t hw0 hw9 (by omega) ht, hstate]
  dsimp only
  exact ⟨rfl, rfl, by omega, by omega, by omega, by omega⟩

theorem claim2_roundtrip_witness :
    (parse 1583843696123 1000).workerId = 1 ∧
    (parse 1583843696123 1000).sequence =
      ((nextIdStep 1583843696123 1 1583843696123 ⟨0, 0⟩).state.sequenceTick : Int) ∧
    0 ≤ (parse 1583843696123 1000).sequence ∧
    (parse 1583843696123 1000).sequence ≤ 999 ∧
    (parse 1583843696123 1000).time = 1583843696123 + (1583843696123 - 1583843696123) ∧
    (parse 1583843696123 1000).time = 1583843696123 :=
  claim2_roundtrip 1583843696123 1 1583843696123 ⟨0, 0⟩ 1000
    (by decide) (by decide) (by decide)

/-- C3: along any run of `nextIdPromise` invocations on one generator instance
(over an arbitrary wall-clock trace), any two resolved ids come out strictly
increasing — hence pairwise distinct — the parsed times are nondecreasing, and
within an equal parsed millisecond the later sequence is strictly greater. -/
theorem claim3_monotonic (e w : Int) (s : GenState) (cs : List Int)
    (i j : Nat) (v1 v2 : Int) (hw0 : 0 ≤ w) (hw9 : w ≤ 9) (hij : i < j)
    (h1 : (runAttempts e w s cs)[i]? = some (.id v1))
    (h2 : (runAttempts e w s cs)[j]? = some (.id v2)) :
    v1 < v2 ∧ v1 ≠ v2 ∧
      (parse e v1).time ≤ (parse e v2).time ∧
      ((parse e v1).time = (parse e v2).time →
        (parse e v1).sequence < (parse e v2).sequence) := by
  have hlt := runAttempts_lt e w cs s i j v1 v2 hij h1 h2
  obtain ⟨m1, t1, hm1, hM1, ht1, rfl⟩ := runAttempts_id_shape e w cs s i v1 h1
  obtain ⟨m2, t2, hm2, hM2, ht2, rfl⟩ := runAttempts_id_shape e w cs s j v2 h2
  rw [parse_packed e w m1 t1 hw0 hw9 hm1 ht1, parse_packed e w m2 t2 hw0 hw9 hm2 ht2]
  dsimp only
  refine ⟨hlt, by omega, by omega, by omega⟩

theorem claim3_monotonic_witness :
    (1000 : Int) < 1001 ∧ (1000 : Int) ≠ 1001 ∧
      (parse 10 1000).time ≤ (parse 10 1001).time ∧
      ((parse 10 1000).time = (parse 10 1001).time →
        (parse 10 1000).sequence < (parse 10 1001).sequence) :=
  claim3_monotonic 10 1 ⟨0, 0⟩ [10, 10] 0 1 1000 1001
    (by decide) (by decide) (by decide) (by decide) (by decide)

/-- C4: once an invocation reaches the emission phase (its result is either
the range rejection or an id), it rejects with the safe-integer-range error
exactly when `current - epoch > 900719925473`, and otherwise resolves with
`(elapsedMillis * 10 + workerId) * 1000 + sequence`. -/
theorem claim4_range_guard (e w c : Int) (s : GenState)
    (h : (nextIdStep e w c s).result = .safeIntegerRangeExceeded ∨
         ∃ v, (nextIdStep e w c s).result = .id v) :
    ((nextIdStep e w c s).result = .safeIntegerRangeExceeded ↔ 900719925473 < c - e) ∧
      ∀ v, (nextIdStep e w c s).result = .id v →
        v = ((c - e) * 10 + w) * 1000 + ((nextIdStep e w c s).state.sequenceTick : Int) := by
  constructor
  · constructor
    · intro hr
      exact (nextIdStep_range e w c s hr).2
    · intro hgt
      rcases h with hr | ⟨v, hv⟩
      · exact hr
      · obtain ⟨_, hrange, _, _, _, _, _⟩ := nextIdStep_id hv
        exact absurd hrange (by omega)
  · intro v hv
    obtain ⟨hec, hrange, t, ht, hstate, hveq, _⟩ := nextIdStep_id hv
    rw [hstate]
    dsimp only
    exact hveq

theorem claim4_range_guard_witness :
    (nextIdStep 1 0 900719925475 ⟨0, 0⟩).result = .safeIntegerRangeExceeded ↔
      900719925473 < (900719925475 : Int) - 1 :=
  (claim4_range_guard 1 0 900719925475 ⟨0, 0⟩ (Or.inl (by decide))).1

/-- C5: with epoch 1583843696123 ms, worker id 1 and the wall clock frozen at
the epoch millisecond, construction succeeds with normalized worker id 1, the
first three invocations resolve exactly 1000, 1001, 1002, and `parse 1000`
yields time = epoch, sequence = 0, workerId = 1. -/
theorem claim5_vectors :
    createFlakeID53 (some 1583843696123) (.num 1) = .ok ⟨1583843696123, 1, ⟨0, 0⟩⟩ ∧
    runAttempts 1583843696123 1 ⟨0, 0⟩ [1583843696123, 1583843696123, 1583843696123]
      = [.id 1000, .id 1001, .id 1002] ∧
    parse 1583843696123 1000 = ⟨1583843696123, 0, 1⟩ := by
  refine ⟨?_, by decide, by decide⟩
  rfl

/-- C6 (counterexample): the construction contract as claimed is false — the
workerId value `""` is provided and is not a whole integer, yet construction
succeeds (it is falsy, so the integer check is skipped and it normalizes
to 0). -/
theorem claim6_counterexample :
    createFlakeID53 (some 1583843696123) (.str "") = .ok ⟨1583843696123, 0, ⟨0, 0⟩⟩ ∧
    JsValue.str "" ≠ JsValue.undef ∧
    isIntegerJs (.str "") = false := by
  refine ⟨rfl, by decide, rfl⟩

/-- C6 (amended): construction fails exactly when `epoch` is missing or zero
(falsy), or when `workerId` is provided, truthy, and not a whole integer; on
success the generator is bound to `workerId = abs(workerId) mod 10`
(0 when absent or falsy) — out-of-range integers wrap silently within
[0, 9] — with freshly zeroed state. -/
theorem claim6_construction (epoch : Option Int) (wid : JsValue) :
    ((∃ msg, createFlakeID53 epoch wid = .error msg) ↔
      epoch.getD 0 = 0 ∨ (isTruthy wid = true ∧ isIntegerJs wid = false)) ∧
    (∀ g, createFlakeID53 epoch wid = .ok g →
      g.epoch = epoch.getD 0 ∧ g.workerId = normWorkerId wid ∧ g.state = ⟨0, 0⟩) ∧
    (∀ n : Int, normWorkerId (.num n) = ((n.natAbs % 10 : Nat) : Int)) ∧
    0 ≤ normWorkerId wid ∧ normWorkerId wid ≤ 9 := by
  refine ⟨?_, ?_, normWorkerId_num, (normWorkerId_bounds wid).1, (normWorkerId_bounds wid).2⟩
  · unfold createFlakeID53
    split_ifs with he hw
    · exact iff_of_true ⟨"No epoch set", rfl⟩ (Or.inl he)
    · simp only [Bool.and_eq_true, Bool.not_eq_true'] at hw
      exact iff_of_true ⟨"Cannot use workerId out of 0..9", rfl⟩ (Or.inr ⟨hw.1, hw.2⟩)
    · apply iff_of_false
      · rintro ⟨msg, hmsg⟩
        exact hmsg.elim
      · simp only [Bool.and_eq_true, Bool.not_eq_true'] at hw
        rintro (h0 | ⟨ht, hi⟩)
        · exact he h0
        · exact hw ⟨ht, hi⟩
  · intro g hg
    unfold createFlakeID53 at hg
    split_ifs at hg with he hw
    injection hg with hg
    subst hg
    exact ⟨rfl, rfl, rfl⟩

theorem claim6_construction_witness :
    (∃ msg, createFlakeID53 (some 0) JsValue.undef = .error msg) ↔
      (some (0 : Int)).getD 0 = 0 ∨
        (isTruthy JsValue.undef = true ∧ isIntegerJs JsValue.undef = false) :=
  (claim6_construction (some 0) JsValue.undef).1

/-- C7: an invocation rejects with the epoch error exactly when the observed
clock precedes the epoch, rejects with the backward-clock error exactly when
the epoch is reached but the clock is behind the stored `sequenceTime`, and in
both failure cases the closure state is left unchanged. -/
theorem claim7_clock_errors (e w c : Int) (s : GenState) :
    ((nextIdStep e w c s).result = .epochOutOfRange ↔ c < e) ∧
    ((nextIdStep e w c s).result = .clockMovedBackward ↔ e ≤ c ∧ c < s.sequenceTime) ∧
    ((nextIdStep e w c s).result = .epochOutOfRange ∨
        (nextIdStep e w c s).result = .clockMovedBackward →
      (nextIdStep e w c s).state = s) :=
  ⟨nextIdStep_epoch_iff e w c s, nextIdStep_clock_iff e w c s,
    nextIdStep_reject_state e w c s⟩

theorem claim7_clock_errors_witness :
    (nextIdStep 5 0 3 ⟨0, 0⟩).result = .epochOutOfRange :=
  (claim7_clock_errors 5 0 3 ⟨0, 0⟩).1.mpr (by decide)

/-- C8: when the branch on `current` leaves the tick above 999 the invocation
does not fail — it re-schedules itself (`retry`) — and as soon as the wall
clock advances past the stored millisecond (staying within the safe window),
the invocation resolves an id whose parsed timestamp is that strictly later
millisecond. -/
theorem claim8_backoff (e w : Int) (s : GenState) (hw0 : 0 ≤ w) (hw9 : w ≤ 9) :
    (∀ c, e ≤ c → s.sequenceTime = c → 999 ≤ s.sequenceTick →
      (nextIdStep e w c s).result = .retry) ∧
    (∀ c2, s.sequenceTime < c2 → e ≤ c2 → c2 - e ≤ 900719925473 →
      (nextIdStep e w c2 s).result = .id (((c2 - e) * 10 + w) * 1000) ∧
      (parse e (((c2 - e) * 10 + w) * 1000)).time = c2 ∧
      s.sequenceTime < (parse e (((c2 - e) * 10 + w) * 1000)).time) := by
  constructor
  · intro c hec hst htick
    unfold nextIdStep
    rw [if_neg (by omega), if_neg (by omega), if_neg (by omega)]
    unfold emitOrReject
    dsimp only
    rw [if_pos (by omega)]
  · intro c2 hst hec2 hrange
    have ht : elapsedT e c2 = c2 - e := elapsedT_eq_self (by omega) (by omega)
    have hstep : nextIdStep e w c2 s = ⟨.id (((c2 - e) * 10 + w) * 1000), ⟨c2, 0⟩⟩ := by
      unfold nextIdStep
      rw [if_neg (by omega), if_pos hst]
      unfold emitOrReject
      dsimp only
      have hng : ¬(1000000000000 ≤ c2 - e ∨ 900719925473 < elapsedT e c2) := by
        rw [ht]
        omega
      rw [if_neg (by omega), if_neg hng, ht]
      simp
    have hp : parse e (((c2 - e) * 10 + w) * 1000) = ⟨e + (c2 - e), 0, w⟩ := by
      have h0 := parse_packed e w (c2 - e) 0 hw0 hw9 (by omega) (by omega)
      simpa using h0
    rw [hstep, hp]
    exact ⟨rfl, by dsimp only; omega, by dsimp only; omega⟩

theorem claim8_backoff_witness :
    (nextIdStep 0 1 5 ⟨5, 1000⟩).result = .retry :=
  (claim8_backoff 0 1 ⟨5, 1000⟩ (by decide) (by decide)).1 5
    (by decide) (by decide) (by decide)

/-- C9: for every non-negative integer id, `parse` returns
`sequence = id mod 1000`, `workerId = floor(id / 1000) mod 10` and
`time = epoch + floor(id / 10000)`; in particular the implementation's
`floor((id mod 10000) / 1000)` agrees with the specified
`floor(id / 1000) mod 10`. -/
theorem claim9_parse_decomposition (e id : Int) (h : 0 ≤ id) :
    parse e id = ⟨e + id / 10000, id % 1000, id / 1000 % 10⟩ := by
  simp only [parse, ParsedId.mk.injEq]
  refine ⟨?_, ?_, ?_⟩
  · rw [Int.fdiv_eq_ediv _ (by omega)]
    omega
  · rw [Int.tmod_eq_emod h (by omega)]
  · rw [Int.tmod_eq_emod h (by omega), Int.fdiv_eq_ediv _ (by omega)]
    omega

theorem claim9_parse_decomposition_witness :
    parse 7 12345 = ⟨7 + 12345 / 10000, 12345 % 1000, 12345 / 1000 % 10⟩ :=
  claim9_parse_decomposition 7 12345 (by decide)

/-- C10: the result of `parse` depends only on the id and the configured
epoch — two generators sharing an epoch, whatever their worker ids and
reachable states, parse identically — and parsing leaves the instance (hence
any subsequent `nextIdPromise` invocation) unaffected. -/
theorem claim10_parse_noninterference (g1 g2 : FlakeGen) (id : Int)
    (h : g1.epoch = g2.epoch) :
    (parseG g1 id).1 = (parseG g2 id).1 ∧
    (parseG g1 id).2 = g1 ∧
    ∀ c, nextIdStep (parseG g1 id).2.epoch (parseG g1 id).2.workerId c
          (parseG g1 id).2.state
        = nextIdStep g1.epoch g1.workerId c g1.state := by
  refine ⟨?_, rfl, fun c => rfl⟩
  show parse g1.epoch id = parse g2.epoch id
  rw [h]

theorem claim10_parse_noninterference_witness :
    (parseG ⟨7, 1, ⟨0, 0⟩⟩ 12345).1 = (parseG ⟨7, 4, ⟨99, 5⟩⟩ 12345).1 ∧
    (parseG ⟨7, 1, ⟨0, 0⟩⟩ 12345).2 = ⟨7, 1, ⟨0, 0⟩⟩ :=
  ⟨(claim10_parse_noninterference ⟨7, 1, ⟨0, 0⟩⟩ ⟨7, 4, ⟨99, 5⟩⟩ 12345 rfl).1,
   (claim10_parse_noninterference ⟨7, 1, ⟨0, 0⟩⟩ ⟨7, 4, ⟨99, 5⟩⟩ 12345 rfl).2.1⟩

end FlakeID53
